import Mathlib

/-!
Shallow embedding of founderio/curse-parser (Go) for specification checking.

The embedding follows the Go sources `util.go` and `curseforge.go`.
External collaborators (the HTTP client, the xmlpath HTML/XPath engine and
parts of the Go standard library) are modelled as explicit oracle functions
or as small executable models of the documented behaviour of the relevant
standard-library version (go1.9-era, matching the 2017 repository):

* an XPath extraction `path.String(context)` is modelled by its outcome,
  an `Option String` (`none` = "node not found");
* `net/http` fetching and `xmlpath.ParseHTML` are modelled by outcome
  oracles (`Option GoError` / `Except GoError doc`);
* `strconv.ParseUint`/`strconv.ParseInt` (base 10, bitSize 64) and
  `net/url`'s `Parse`, `resolvePath` and `ResolveReference` are given
  executable models restricted to the fields the repository uses
  (scheme, host, path, raw query).

Go's `(value, error)` returns are modelled as `Except` when the value is
never used on error (`return nil, err`), and as an explicit pair when the
Go code does return a meaningful value alongside the error
(`UnixTimestamp`, and the in-place mutation of the results accumulator).
-/

/-- Model of a Go `error` value: either a leaf message (`errors.New`,
the strconv `NumError`s) or a wrapping produced by
`fmt.Errorf("<context>: %s", err)`, kept structurally so that the
original cause stays visible. -/
inductive GoError where
  | msg (s : String)
  | malformedNum (fn num : String)
  | numRange (fn num : String)
  | wrap (context : String) (cause : GoError)
deriving DecidableEq, Repr

/-- Surfacing relation on errors: `e.surfaces cause` holds when peeling
`fmt.Errorf` wrappings off `e` reaches `cause`. -/
def GoError.surfaces : GoError → GoError → Bool
  | e, c =>
    if e = c then true
    else
      match e with
      | .wrap _ inner => inner.surfaces c
      | _ => false

/-- Character test of Go `unicode.IsSpace`, restricted to ASCII (the
scraped pages contain no exotic Unicode spaces). -/
def isSpaceGo (c : Char) : Bool :=
  c = ' ' || c = '\t' || c = '\n' || c = '\r' || c.toNat = 11 || c.toNat = 12

/-- Model of Go `strings.TrimSpace`: drop leading and trailing
whitespace. -/
def trimSpace (s : String) : String :=
  ⟨((s.data.dropWhile isSpaceGo).reverse.dropWhile isSpaceGo).reverse⟩

/-- Model of Go `strings.Replace(s, ",", "", -1)`: removes every comma.
For a single-character pattern this is exactly a character filter. -/
def removeCommas (s : String) : String :=
  ⟨s.data.filter (fun c => c ≠ ',')⟩

/-- Value of a list of decimal digit characters, most significant first. -/
def digitsVal (l : List Char) : Nat :=
  l.foldl (fun acc c => acc * 10 + (c.toNat - 48)) 0

/-- Model of Go `strconv.ParseUint(s, 10, 64)`: a non-empty all-digit
string parses to its value when it fits in 64 bits; otherwise
`ErrSyntax` (non-digit content, empty, any sign) or `ErrRange`. -/
def goParseUint (s : String) : Except GoError Nat :=
  if s.data ≠ [] ∧ s.data.all Char.isDigit then
    if digitsVal s.data ≤ 18446744073709551615 then .ok (digitsVal s.data)
    else .error (.numRange "ParseUint" s)
  else .error (.malformedNum "ParseUint" s)

/-- Model of Go `strconv.ParseInt(s, 10, 64)`: an optional single leading
sign, then digits, range-checked against the int64 bounds. (In Go a
`ParseUint` overflow flows into the signed cutoff checks with
`un = MaxUint64`, which the unbounded value check subsumes.) -/
def goParseInt (s : String) : Except GoError Int :=
  match s.data with
  | [] => .error (.malformedNum "ParseInt" s)
  | c :: rest =>
    let body := if c = '-' ∨ c = '+' then rest else c :: rest
    if body ≠ [] ∧ body.all Char.isDigit then
      if c = '-' then
        if digitsVal body > 9223372036854775808 then .error (.numRange "ParseInt" s)
        else .ok (-(digitsVal body : Int))
      else
        if digitsVal body ≥ 9223372036854775808 then .error (.numRange "ParseInt" s)
        else .ok (digitsVal body : Int)
    else .error (.malformedNum "ParseInt" s)

/-- Embedding of `ParseUInt` (util.go:204): trims, maps the literal "-"
to 0, strips commas, then `strconv.ParseUint`. NOTE: faithful to the
source, the comma-strip is applied to `parseString` (the original,
untrimmed argument), not to the trimmed `str`. -/
def ParseUInt (parseString : String) : Except GoError Nat :=
  let str := trimSpace parseString
  if str = "-" then .ok 0
  else goParseUint (removeCommas parseString)

/-- Embedding of `ParseInt` (util.go:230): same shape as `ParseUInt` but
signed; the comma-strip likewise reads the original `parseString`. -/
def ParseInt (parseString : String) : Except GoError Int :=
  let str := trimSpace parseString
  if str = "-" then .ok 0
  else goParseInt (removeCommas parseString)

/-- Modelled from the spec: `parse_unsigned(text)` trims surrounding
whitespace, maps "-" to 0, removes the thousands separators from the
trimmed text, and parses the remainder as a non-negative base-10
integer. Used to exhibit where the source deviates from this. -/
def parseUnsignedSpecModel (text : String) : Except GoError Nat :=
  let str := trimSpace text
  if str = "-" then .ok 0
  else goParseUint (removeCommas str)

/-- Section flag constant (curseforge.go:39). -/
def CFSectionHeader : Nat := 0

/-- Section flag constant (curseforge.go:44). -/
def CFSectionOverview : Nat := 1

/-- Section flag constant (curseforge.go:49). -/
def CFSectionFiles : Nat := 2

/-- Section flag constant (curseforge.go:51). -/
def CFSectionImages : Nat := 4

/-- Embedding of `CurseForgeSections.Has` (curseforge.go:58): the zero
flag is always reported as present, any other flag by bitwise and. -/
def CurseForgeSections.Has (s sec : Nat) : Bool :=
  if sec = CFSectionHeader then true else Nat.land s sec != 0

/-- Option flag constant (curseforge.go:71). -/
def CFOptionNone : Nat := 0

/-- Option flag constant (curseforge.go:78). -/
def CFOptionOverviewRecentFiles : Nat := 1

/-- Option flag constant (curseforge.go:81). -/
def CFOptionFilesNoPagination : Nat := 2

/-- Embedding of `CurseForgeOptions.Has` (curseforge.go:86). -/
def CurseForgeOptions.Has (o opt : Nat) : Bool :=
  if opt = CFOptionNone then true else Nat.land o opt != 0

/-- Model of a Go `net/url.URL` restricted to the fields this repository
reads or writes: scheme, opaque part (as `opaquePart`), host, path and raw query. The
user-info and fragment fields are never consumed by the repository and
are outside the modelled slice. -/
structure URL where
  scheme : String
  opaquePart : String
  host : String
  path : String
  rawQuery : String
deriving DecidableEq, Repr

/-- Outcome of `net/url`'s `getscheme`: a hard error (leading colon), no
scheme present, or a scheme split off from the remainder. -/
inductive SchemeSplit where
  | err
  | noScheme
  | found (scheme rest : String)
deriving DecidableEq, Repr

/-- Scheme scanner of `net/url.getscheme` (go1.9): letters, then
letters/digits/plus/minus/dot, terminated by a colon; a digit or other
character first means the string has no scheme; a leading colon is an
error ("missing protocol scheme"). -/
def getSchemeGo (acc : List Char) : List Char → SchemeSplit
  | [] => .noScheme
  | c :: rest =>
    if c.isAlpha then getSchemeGo (c :: acc) rest
    else if c.isDigit ∨ c = '+' ∨ c = '-' ∨ c = '.' then
      if acc = [] then .noScheme else getSchemeGo (c :: acc) rest
    else if c = ':' then
      if acc = [] then .err else .found ⟨acc.reverse⟩ ⟨rest⟩
    else .noScheme

/-- Cut a string at the first occurrence of `c`, dropping `c` itself;
when `c` is absent the second component is empty (Go `split(s, c, true)`). -/
def cutAtChar (c : Char) (s : String) : String × String :=
  go [] s.data
  where
    go (acc : List Char) : List Char → String × String
      | [] => (⟨acc.reverse⟩, "")
      | x :: rest => if x = c then (⟨acc.reverse⟩, ⟨rest⟩) else go (x :: acc) rest

/-- Cut a string at the first '/', keeping the '/' in the second
component (Go `split(s, "/", false)`). -/
def cutSlashKeep (s : String) : String × String :=
  go [] s.data
  where
    go (acc : List Char) : List Char → String × String
      | [] => (⟨acc.reverse⟩, "")
      | x :: rest =>
        if x = '/' then (⟨acc.reverse⟩, ⟨x :: rest⟩) else go (x :: acc) rest

/-- Character test of Go's `ishex`. -/
def isHexChar (c : Char) : Bool :=
  c.isDigit || ('a' ≤ c ∧ c ≤ 'f') || ('A' ≤ c ∧ c ≤ 'F')

/-- Escape validation performed by `net/url.unescape`: every '%' must be
followed by two hex digits. (The repository's URLs contain no escapes,
so decoding itself is modelled as the identity.) -/
def validEscapes : List Char → Bool
  | [] => true
  | '%' :: a :: b :: rest => isHexChar a && isHexChar b && validEscapes rest
  | '%' :: _ => false
  | _ :: rest => validEscapes rest

/-- Count of leading '/' characters, capped at 3 (enough to decide the
`strings.HasPrefix(rest, "/")`, `"//"` and `"///"` tests of `parse`). -/
def leadSlashes : List Char → Nat
  | '/' :: '/' :: '/' :: _ => 3
  | '/' :: '/' :: _ => 2
  | '/' :: _ => 1
  | _ => 0

/-- Second stage of the `net/url.Parse` model, after the scheme (already
lowercased) was split off: query split, opaque detection, authority
split and path escape validation, per go1.9 `parse(rawurl, false)`. -/
def parseAfterScheme (scheme rest0 : String) : Except GoError URL :=
  let qp := cutAtChar '?' rest0
  let rest := qp.1
  let rawQuery := qp.2
  let ls := leadSlashes rest.data
  if ls = 0 ∧ scheme ≠ "" then
    .ok { scheme := scheme, opaquePart := rest, host := "", path := "", rawQuery := rawQuery }
  else
    if (scheme ≠ "" ∨ ls ≠ 3) ∧ 2 ≤ ls then
      let ar := cutSlashKeep ⟨rest.data.drop 2⟩
      if validEscapes ar.2.data then
        .ok { scheme := scheme, opaquePart := "", host := ar.1, path := ar.2, rawQuery := rawQuery }
      else .error (.msg "invalid URL escape")
    else
      if validEscapes rest.data then
        .ok { scheme := scheme, opaquePart := "", host := "", path := rest, rawQuery := rawQuery }
      else .error (.msg "invalid URL escape")

/-- Model of `net/url.Parse` (go1.9), restricted to the modelled URL
slice: fragment split, scheme split, then `parseAfterScheme`. The
fragment is dropped (never consumed by the repository). -/
def goURLParse (rawurl : String) : Except GoError URL :=
  let noFrag := (cutAtChar '#' rawurl).1
  match getSchemeGo [] noFrag.data with
  | .err => .error (.msg "missing protocol scheme")
  | .noScheme => parseAfterScheme "" noFrag
  | .found sch rest => parseAfterScheme ⟨sch.data.map Char.toLower⟩ rest

/-- Embedding of `ParseURL` (util.go:131): parse, then default an empty
scheme to "https". A parse failure is returned to the caller. -/
def ParseURL (urlString : String) : Except GoError URL :=
  match goURLParse urlString with
  | .error e => .error e
  | .ok u => .ok (if u.scheme = "" then { u with scheme := "https" } else u)

/-- Base path up to and including its last '/'; empty when the path has
no '/' (Go `base[:strings.LastIndex(base, "/")+1]`). -/
def baseUpToLastSlash (base : String) : String :=
  ⟨(base.data.reverse.dropWhile (fun c => c ≠ '/')).reverse⟩

/-- Split a character list on '/' boundaries, preserving empty segments
(Go `strings.Split(full, "/")`). -/
def splitSlash : List Char → List (List Char)
  | [] => [[]]
  | '/' :: rest => [] :: splitSlash rest
  | c :: rest =>
    match splitSlash rest with
    | g :: gs => (c :: g) :: gs
    | [] => [[c]]

/-- Join segments with '/' separators (Go `strings.Join(dst, "/")`). -/
def joinSlash : List (List Char) → List Char
  | [] => []
  | [g] => g
  | g :: gs => g ++ '/' :: joinSlash gs

/-- Model of `net/url.resolvePath` (go1.9): merge `ref` onto `base` per
RFC 3986, drop "." segments, let ".." pop a segment, keep a trailing
slash after a final dot segment, and force a single leading '/'
(`"/" + strings.TrimPrefix(strings.Join(dst, "/"), "/")`). -/
def resolvePath (base ref : String) : String :=
  let full : List Char :=
    if ref = "" then base.data
    else if ref.data.headD ' ' ≠ '/' then (baseUpToLastSlash base).data ++ ref.data
    else ref.data
  if full = [] then ""
  else
    let src := splitSlash full
    let dst := src.foldl
      (fun dst elem =>
        if elem = ['.'] then dst
        else if elem = ['.', '.'] then dst.dropLast
        else dst ++ [elem]) []
    let last := src.getLastD []
    let dst := if last = ['.'] ∨ last = ['.', '.'] then dst ++ [[]] else dst
    match joinSlash dst with
    | '/' :: t => ⟨'/' :: t⟩
    | t => ⟨'/' :: t⟩

/-- Model of `net/url.URL.ResolveReference` (go1.9) on the modelled URL
slice: an absolute or net-path reference keeps its own authority and
normalized path; an opaque reference is kept; otherwise host comes from
the base, the path is merged, and an empty path with empty query
inherits the base query. -/
def resolveReference (u ref : URL) : URL :=
  let sch := if ref.scheme = "" then u.scheme else ref.scheme
  if ref.scheme ≠ "" ∨ ref.host ≠ "" then
    { ref with scheme := sch, path := resolvePath ref.path "" }
  else if ref.opaquePart ≠ "" then
    { ref with scheme := sch, host := "", path := "" }
  else
    let q := if ref.path = "" ∧ ref.rawQuery = "" then u.rawQuery else ref.rawQuery
    { scheme := sch, opaquePart := "", host := u.host,
      path := resolvePath u.path ref.path, rawQuery := q }

/-- Embedding of the `XpathCache.String` wrapper (util.go:89): the raw
extraction outcome of `path.String(context)` is modelled as an
`Option String`; a found value is space-trimmed. -/
def cacheString (raw : Option String) : Option String := raw.map trimSpace

/-- Embedding of `XpathCache.URLWithBaseURL` (util.go:170): extract the
string, parse it (trimmed) as a URL, resolve against `base`, then
default an empty scheme to "https". -/
def URLWithBaseURL (raw : Option String) (base : URL) : Except GoError URL :=
  match cacheString raw with
  | none => .error (.msg "node not found")
  | some urlString =>
    match goURLParse (trimSpace urlString) with
    | .error e => .error e
    | .ok parsedURL =>
      let r := resolveReference base parsedURL
      .ok (if r.scheme = "" then { r with scheme := "https" } else r)

/-- Embedding of `XpathCache.UInt` (util.go:193). -/
def cacheUInt (raw : Option String) : Except GoError Nat :=
  match cacheString raw with
  | none => .error (.msg "node not found")
  | some s => ParseUInt s

/-- Embedding of `XpathCache.Int` (util.go:219). -/
def cacheInt (raw : Option String) : Except GoError Int :=
  match cacheString raw with
  | none => .error (.msg "node not found")
  | some s => ParseInt s

/-- Model of a Go `time.Time` restricted to what the repository
produces: seconds since the Unix epoch plus the location name set by
`.UTC()`. -/
structure GoTime where
  unixSec : Int
  loc : String
deriving DecidableEq, Repr

/-- Model of `time.Unix(sec, 0).UTC()`. -/
def timeUnixUTC (sec : Int) : GoTime := { unixSec := sec, loc := "UTC" }

/-- Embedding of `XpathCache.UnixTimestamp` (util.go:247): delegate to
the signed accessor; on success the instant is that many seconds after
the epoch in UTC, on failure the pair `(time.Unix(0,0).UTC(), err)` is
returned. -/
def UnixTimestamp (raw : Option String) : GoTime × Option GoError :=
  match cacheInt raw with
  | .error err => (timeUnixUTC 0, some err)
  | .ok ts => (timeUnixUTC ts, none)

/-- Model of the `XpathCache` struct (util.go:51): compiled queries of
type `P` keyed by the exact selector text. The Go map is modelled as an
association list with most-recent insertion first. -/
structure XpathCache (P : Type) where
  paths : List (String × P)
deriving DecidableEq

/-- Embedding of `NewXpathCache` (util.go:56). -/
def NewXpathCache (P : Type) : XpathCache P := { paths := [] }

/-- Embedding of `XpathCache.AddToCache` (util.go:83). -/
def AddToCache {P : Type} (cache : XpathCache P) (uncompiled : String) (compiled : P) :
    XpathCache P :=
  { paths := (uncompiled, compiled) :: cache.paths }

/-- Outcome of `GetCompiledPath`: either a compiled query together with
the updated cache and a flag telling whether the external compiler was
invoked, or a process abort (`xmlpath.MustCompile` panics). -/
inductive CompileOutcome (P : Type) where
  | ok (p : P) (cache : XpathCache P) (compilerInvoked : Bool)
  | panicked (path : String)
deriving DecidableEq

/-- Embedding of `XpathCache.GetCompiledPath` (util.go:66): return the
cached instance on a hit; on a miss invoke the external compiler
(modelled as the oracle `compile`; `xmlpath.MustCompile` panics when the
compiler rejects the text) and store the result under the selector text. -/
def GetCompiledPath {P : Type} (compile : String → Option P) (cache : XpathCache P)
    (path : String) : CompileOutcome P :=
  match cache.paths.lookup path with
  | some p => .ok p cache false
  | none =>
    match compile path with
    | some p => .ok p (AddToCache cache path p) true
    | none => .panicked path

/-- Model of the `File` struct (datatypes.go), fields as in the source;
nil-able `*url.URL` pointers become `Option URL`. (The `URL` field is
declared last so that its name does not shadow the `URL` type in the
other field declarations.) -/
structure File where
  Name : String
  DirectURL : Option URL
  ReleaseType : String
  GameVersion : String
  Downloads : Nat
  Date : GoTime
  SizeInfo : String
  HasAdditionalFiles : Bool
  URL : Option URL
deriving DecidableEq, Repr

/-- Model of the `CurseForge` results struct, restricted to the slice the
files aggregation touches: the `Downloads` accumulator. The header and
overview fields are never written by `parseCFFiles` and are outside the
modelled slice (their parsers appear as oracles below). -/
structure CurseForge where
  Downloads : List File
deriving DecidableEq, Repr

/-- A files listing page as `parseCFFilesSinglePage` sees it: the
`project-file-list-item` rows, each modelled by its extraction outcome
(a `File` or the first field error), and the text of the
`b-pagination-item` anchors of the listing header (empty when the page
has no pagination control). -/
structure FilesPageDoc where
  rows : List (Except GoError File)
  paginationLabels : List String

/-- Loop body of `parseCFFilesSinglePage` (curseforge.go:568): append
each parsed row to `results.Downloads`; the first failing row stops the
loop, the rows appended so far stay in the accumulator (the Go code
mutates `results` in place) and the error is returned. -/
def parseCFFilesRows : CurseForge → List (Except GoError File) → CurseForge × Option GoError
  | results, [] => (results, none)
  | results, .ok f :: rest =>
    parseCFFilesRows { results with Downloads := results.Downloads ++ [f] } rest
  | results, .error e :: _ => (results, some e)

/-- Embedding of `parseCFFilesSinglePage` (curseforge.go:568). -/
def parseCFFilesSinglePage (results : CurseForge) (root : FilesPageDoc) :
    CurseForge × Option GoError :=
  parseCFFilesRows results root.rows

/-- Pagination scan of `parseCFFiles` (curseforge.go:529): parse every
pagination label with `ParseUInt`, keep the maximum; a label that fails
to parse aborts with a wrapped error. -/
def scanPagination (pageCount : Nat) : List String → Except GoError Nat
  | [] => .ok pageCount
  | l :: rest =>
    match ParseUInt l with
    | .error e => .error (.wrap "error parsing page number" e)
    | .ok val => scanPagination (if val > pageCount then val else pageCount) rest

/-- Specification-side reading of the pagination labels: parse every
label with `ParseUInt` in order, failing on the first bad label. Used
to state what `scanPagination` discovers (the maximum of the parsed
values). -/
def parseLabels : List String → Except GoError (List Nat)
  | [] => .ok []
  | l :: rest =>
    match ParseUInt l with
    | .error e => .error e
    | .ok v =>
      match parseLabels rest with
      | .error e => .error e
      | .ok vs => .ok (v :: vs)

/-- Oracles for the subsequent files pages: `fetchPage` is the
`FetchPage` outcome for the page-n URL (`none` = success), `pageDoc`
the `xmlpath.ParseHTML` outcome for the fetched body. -/
structure FilesWorld where
  fetchPage : Nat → Option GoError
  pageDoc : Nat → Except GoError FilesPageDoc

/-- Page loop of `parseCFFiles` (curseforge.go:545), iterating over the
ascending list of page numbers the Go counter loop visits: fetch and
parse each page, appending its records; any failure stops the loop with
a wrapped error. Besides the accumulator and the error, the model
returns the trace of page numbers fetched, in order. (The wrap text of
a failing subsequent-page parse is "error parsing first files page",
faithful to curseforge.go:561.) -/
def parseCFFilesPages (w : FilesWorld) : CurseForge → List Nat →
    CurseForge × List Nat × Option GoError
  | results, [] => (results, [], none)
  | results, page :: rest =>
    match w.fetchPage page with
    | some e =>
      (results, [page],
        some (.wrap ("error fetching subsequent files page (" ++ toString page ++ ")") e))
    | none =>
      match w.pageDoc page with
      | .error e =>
        (results, [page],
          some (.wrap ("error parsing xml/http for subsequent files page ("
            ++ toString page ++ ")") e))
      | .ok doc =>
        match parseCFFilesRows results doc.rows with
        | (r, some e) => (r, [page], some (.wrap "error parsing first files page" e))
        | (r, none) =>
          let nxt := parseCFFilesPages w r rest
          (nxt.1, page :: nxt.2.1, nxt.2.2)

/-- Embedding of `parseCFFiles` (curseforge.go:513): parse page 1 into
the accumulator; stop when the no-pagination option is set; otherwise
discover the page count as the maximum pagination label and load pages
2..pageCount sequentially (`List.range' 2 (pageCount + 1 - 2)` is the
ascending page list the Go counter loop visits). -/
def parseCFFiles (results : CurseForge) (options : Nat) (root : FilesPageDoc)
    (w : FilesWorld) : CurseForge × List Nat × Option GoError :=
  match parseCFFilesSinglePage results root with
  | (r, some e) => (r, [], some (.wrap "error parsing first files page" e))
  | (r, none) =>
    if CurseForgeOptions.Has options CFOptionFilesNoPagination then (r, [], none)
    else
      match scanPagination 0 root.paginationLabels with
      | .error e => (r, [], some e)
      | .ok pageCount => parseCFFilesPages w r (List.range' 2 (pageCount + 1 - 2))

/-- The sections a fetched document can belong to; `header` stands for
the header-only call (`CFSectionHeader`, numeric 0). The derived-URL map
of `DeriveCurseForgeURLs` has exactly the keys overview, files, images. -/
inductive CFSection where
  | header
  | overview
  | files
  | images
deriving DecidableEq, Repr

/-- Numeric flag of a section (curseforge.go:35). -/
def sectionBit : CFSection → Nat
  | .header => CFSectionHeader
  | .overview => CFSectionOverview
  | .files => CFSectionFiles
  | .images => CFSectionImages

/-- Oracles for one `FetchCurseForge` run: per-section fetch and HTML
parse outcomes, the header parser outcome (header fields are outside the
modelled accumulator slice), the overview parser as an accumulator
transformer, and the files listing world. -/
structure CFWorld where
  fetchErr : CFSection → Option GoError
  htmlErr : CFSection → Option GoError
  headerErr : Option GoError
  overviewParse : CurseForge → CurseForge × Option GoError
  filesDoc : FilesPageDoc
  filesWorld : FilesWorld

/-- Embedding of `CurseForge.ParseCurseForge` (curseforge.go:203): HTML
parse, optional header parse, then dispatch on the single section;
`parseCFImages` is a no-op in the source, and the numeric 0 section
(`header`) matches no switch case. -/
def ParseCurseForge (w : CFWorld) (options : Nat) (results : CurseForge)
    (parseHeader : Bool) (sec : CFSection) : CurseForge × Option GoError :=
  match w.htmlErr sec with
  | some e => (results, some (.wrap "error parsing xml/http" e))
  | none =>
    match (if parseHeader then w.headerErr else none) with
    | some e => (results, some (.wrap "error processing CF header" e))
    | none =>
      match sec with
      | .header => (results, none)
      | .overview =>
        match w.overviewParse results with
        | (r, some e) => (r, some (.wrap "error processing CF Overview" e))
        | (r, none) => (r, none)
      | .files =>
        match parseCFFiles results options w.filesDoc w.filesWorld with
        | (r, _, some e) => (r, some (.wrap "error processing CF Files" e))
        | (r, _, none) => (r, none)
      | .images => (results, none)

/-- Section loop of `FetchCurseForge` (curseforge.go:174): process the
derived URLs in map iteration order `order`; a selected section is
fetched and parsed, the header only on the first processed section; any
failure returns `nil` plus a wrapped error to the caller (`Except.error`
models the Go `return nil, err` — no partial accumulator escapes). -/
def FetchCurseForgeLoop (w : CFWorld) (sections options : Nat) :
    List CFSection → Bool → CurseForge → Except GoError CurseForge
  | [], _, results => .ok results
  | sec :: rest, doHeader, results =>
    if CurseForgeSections.Has sections (sectionBit sec) then
      match w.fetchErr sec with
      | some e => .error (.wrap "Error fetching URL" e)
      | none =>
        match ParseCurseForge w options results doHeader sec with
        | (_, some e) => .error (.wrap "Error parsing URL" e)
        | (r, none) => FetchCurseForgeLoop w sections options rest false r
    else FetchCurseForgeLoop w sections options rest doHeader results

/-- Embedding of `FetchCurseForge` (curseforge.go:148): the header-only
call fetches the project page and parses just the header (errors
returned unwrapped, as in the source); otherwise the section loop runs
over the derived-URL map in iteration order `order` starting from an
empty accumulator. (In the header-only branch the fetch and HTML-parse
oracles are keyed by `.header`; the URL fetched is the project page.) -/
def FetchCurseForge (w : CFWorld) (sections options : Nat) (order : List CFSection) :
    Except GoError CurseForge :=
  if sections = CFSectionHeader then
    match w.fetchErr .header with
    | some e => .error e
    | none =>
      match ParseCurseForge w options { Downloads := [] } true .header with
      | (_, some e) => .error e
      | (r, none) => .ok r
  else FetchCurseForgeLoop w sections options order true { Downloads := [] }

/-- Concrete sample record for witnesses. -/
def sampleFileA : File :=
  { Name := "taam-1.0.jar", DirectURL := none, ReleaseType := "Release",
    GameVersion := "1.12", Downloads := 10, Date := timeUnixUTC 1500000000,
    SizeInfo := "1 MB", HasAdditionalFiles := false, URL := none }

/-- Concrete sample record for witnesses. -/
def sampleFileB : File :=
  { Name := "taam-0.9.jar", DirectURL := none, ReleaseType := "Beta",
    GameVersion := "1.11", Downloads := 3, Date := timeUnixUTC 1400000000,
    SizeInfo := "900 KB", HasAdditionalFiles := false, URL := none }

/-- C10: the zero flag (`CFSectionHeader` / `CFOptionNone`) is reported
as present by `Has` for every receiver; a non-zero argument is reported
exactly when its bitwise and with the receiver is non-zero, which for a
single-bit flag `2 ^ k` is exactly bit `k` of the receiver. -/
theorem Has_zero_and_bit_spec :
    (∀ s, CurseForgeSections.Has s CFSectionHeader = true) ∧
    (∀ o, CurseForgeOptions.Has o CFOptionNone = true) ∧
    (∀ s a, a ≠ 0 → (CurseForgeSections.Has s a = true ↔ Nat.land s a ≠ 0)) ∧
    (∀ o a, a ≠ 0 → (CurseForgeOptions.Has o a = true ↔ Nat.land o a ≠ 0)) ∧
    (∀ s k, CurseForgeSections.Has s (2 ^ k) = true ↔ Nat.testBit s k = true) := by
  refine ⟨fun s => rfl, fun o => rfl, ?_, ?_, ?_⟩
  · intro s a ha
    simp [CurseForgeSections.Has, CFSectionHeader, ha, bne_iff_ne]
  · intro o a ha
    simp [CurseForgeOptions.Has, CFOptionNone, ha, bne_iff_ne]
  · intro s k
    have hpow : (2 : Nat) ^ k ≠ 0 := Nat.pos_iff_ne_zero.mp (Nat.two_pow_pos k)
    simp only [CurseForgeSections.Has, CFSectionHeader, if_neg hpow, bne_iff_ne, ne_eq]
    rw [show Nat.land s (2 ^ k) = s &&& 2 ^ k from rfl, Nat.and_two_pow]
    cases hb : s.testBit k <;> simp [hpow]

/-- C10 witness: concrete instances of the hypothesis-bearing clauses of
`Has_zero_and_bit_spec`. -/
theorem Has_zero_and_bit_spec_witness :
    CurseForgeSections.Has 6 CFSectionFiles = true ∧
    CurseForgeOptions.Has 5 CFOptionOverviewRecentFiles = true :=
  ⟨(Has_zero_and_bit_spec.2.2.1 6 CFSectionFiles (by decide)).mpr (by decide),
   (Has_zero_and_bit_spec.2.2.2.1 5 CFOptionOverviewRecentFiles (by decide)).mpr (by decide)⟩

/-- C3: a hit returns the stored compiled query without invoking the
compiler and leaves the cache unchanged; hence after any successful call
the next call with the same selector returns exactly the stored query
with no compiler invocation. On a miss the compiler is invoked, its
result stored under the exact selector text and returned. -/
theorem GetCompiledPath_cache_spec :
    (∀ (P : Type) (compile : String → Option P) (cache : XpathCache P) (s : String)
        (p : P) (c1 : XpathCache P) (b : Bool),
      GetCompiledPath compile cache s = .ok p c1 b →
      GetCompiledPath compile c1 s = .ok p c1 false) ∧
    (∀ (P : Type) (compile : String → Option P) (cache : XpathCache P) (s : String) (p : P),
      cache.paths.lookup s = none → compile s = some p →
      GetCompiledPath compile cache s = .ok p (AddToCache cache s p) true) := by
  constructor
  · intro P compile cache s p c1 b h
    unfold GetCompiledPath at h ⊢
    cases hl : cache.paths.lookup s with
    | some q =>
      rw [hl] at h
      cases h
      rw [hl]
    | none =>
      rw [hl] at h
      cases hc : compile s with
      | some q =>
        rw [hc] at h
        cases h
        simp [AddToCache, List.lookup]
      | none =>
        rw [hc] at h
        cases h
  · intro P compile cache s p hl hc
    unfold GetCompiledPath
    rw [hl, hc]

/-- C3 witness: a miss followed by a hit on the same selector, on a
concrete cache with a concrete compile oracle. -/
theorem GetCompiledPath_cache_spec_witness :
    GetCompiledPath (fun _ : String => some 7) (NewXpathCache Nat) "//a/@href" =
      .ok 7 (AddToCache (NewXpathCache Nat) "//a/@href" 7) true ∧
    GetCompiledPath (fun _ : String => some 7)
        (AddToCache (NewXpathCache Nat) "//a/@href" 7) "//a/@href" =
      .ok 7 (AddToCache (NewXpathCache Nat) "//a/@href" 7) false := by
  have h1 := GetCompiledPath_cache_spec.2 Nat (fun _ => some 7) (NewXpathCache Nat)
    "//a/@href" 7 rfl rfl
  exact ⟨h1, GetCompiledPath_cache_spec.1 Nat (fun _ => some 7) (NewXpathCache Nat)
    "//a/@href" 7 _ true h1⟩

/-- C4 counterexample: the claim says a selector the compiler rejects
yields a recoverable error returned to the caller; in the source
`GetCompiledPath` calls `xmlpath.MustCompile`, which panics, so the
outcome is a process abort, not an error value. -/
theorem GetCompiledPath_panics_cex :
    GetCompiledPath (fun _ : String => (none : Option Nat)) (NewXpathCache Nat)
      "//not-a[valid" = .panicked "//not-a[valid" := rfl

/-- C4 amended: for every selector not already cached that the external
compiler rejects, `GetCompiledPath` panics (aborting the process) rather
than returning a recoverable error. -/
theorem GetCompiledPath_panics (P : Type) (compile : String → Option P)
    (cache : XpathCache P) (s : String)
    (hl : cache.paths.lookup s = none) (hc : compile s = none) :
    GetCompiledPath compile cache s = .panicked s := by
  unfold GetCompiledPath
  rw [hl, hc]

/-- C4 witness: the amended panic behaviour at a concrete selector. -/
theorem GetCompiledPath_panics_witness :
    GetCompiledPath (fun _ : String => (none : Option Nat)) (NewXpathCache Nat) "///" =
      .panicked "///" :=
  GetCompiledPath_panics Nat (fun _ => none) (NewXpathCache Nat) "///" rfl rfl

/-- C5 (code bug exhibit): `ParseUInt` computes the trimmed string but
then strips commas from the original, untrimmed argument, so an input
with surrounding whitespace fails although the claim (and the inline
comment's intent) says it is trimmed first: `" 12"` fails in the source
while the trim-first semantics (`parseUnsignedSpecModel`, and
`ParseUInt` on the pre-trimmed input) yields 12. The remaining clauses
of the claim hold: "-" maps to 0, commas are stripped, trailing junk
and a sign fail, and `ParseInt` accepts a leading sign. -/
theorem ParseUInt_trim_divergence :
    ParseUInt " 12" = .error (.malformedNum "ParseUint" " 12") ∧
    parseUnsignedSpecModel " 12" = .ok 12 ∧
    trimSpace " 12" = "12" ∧
    ParseUInt "12" = .ok 12 ∧
    ParseUInt "-" = .ok 0 ∧
    ParseUInt "1,234" = .ok 1234 ∧
    ParseUInt "12a" = .error (.malformedNum "ParseUint" "12a") ∧
    ParseInt "-42" = .ok (-42) ∧
    ParseInt " -42" = .error (.malformedNum "ParseInt" " -42") :=
  ⟨rfl, rfl, rfl, rfl, rfl, rfl, rfl, rfl, rfl⟩

/-- C6: `ParseURL` returns the parsed URL with an empty scheme defaulted
to "https" and a non-empty scheme kept unchanged, and fails with the
parse error on unparsable text. -/
theorem ParseURL_spec :
    (∀ s u, goURLParse s = .ok u → u.scheme = "" →
      ParseURL s = .ok { u with scheme := "https" }) ∧
    (∀ s u, goURLParse s = .ok u → u.scheme ≠ "" → ParseURL s = .ok u) ∧
    (∀ s e, goURLParse s = .error e → ParseURL s = .error e) := by
  refine ⟨?_, ?_, ?_⟩
  · intro s u h hs
    simp only [ParseURL, h]
    rw [if_pos hs]
  · intro s u h hs
    simp only [ParseURL, h]
    rw [if_neg hs]
  · intro s e h
    simp only [ParseURL, h]

/-- C6 witness: the schemeless and the scheme-bearing examples, plus an
unparsable input (leading colon). -/
theorem ParseURL_spec_witness :
    ParseURL "//example.com/x" =
      .ok { scheme := "https", opaquePart := "", host := "example.com",
            path := "/x", rawQuery := "" } ∧
    ParseURL "http://example.com/x" =
      .ok { scheme := "http", opaquePart := "", host := "example.com",
            path := "/x", rawQuery := "" } ∧
    ParseURL ":nope" = .error (.msg "missing protocol scheme") :=
  ⟨ParseURL_spec.1 "//example.com/x"
      { scheme := "", opaquePart := "", host := "example.com", path := "/x", rawQuery := "" }
      rfl rfl,
   ParseURL_spec.2.1 "http://example.com/x"
      { scheme := "http", opaquePart := "", host := "example.com", path := "/x", rawQuery := "" }
      rfl (by decide),
   ParseURL_spec.2.2 ":nope" (.msg "missing protocol scheme") rfl⟩

/-- C8: `UnixTimestamp` delegates to the signed accessor `cacheInt`; on
success the instant is exactly that many seconds after the Unix epoch in
UTC, on failure it fails with exactly the underlying error. -/
theorem UnixTimestamp_delegates :
    (∀ raw ts, cacheInt raw = .ok ts →
      UnixTimestamp raw = ({ unixSec := ts, loc := "UTC" }, none)) ∧
    (∀ raw e, cacheInt raw = .error e →
      UnixTimestamp raw = (timeUnixUTC 0, some e)) := by
  constructor
  · intro raw ts h
    simp only [UnixTimestamp, h, timeUnixUTC]
  · intro raw e h
    simp only [UnixTimestamp, h]

/-- C8 witness: a successful timestamp extraction and a missing node. -/
theorem UnixTimestamp_delegates_witness :
    UnixTimestamp (some "1500000000") = ({ unixSec := 1500000000, loc := "UTC" }, none) ∧
    UnixTimestamp none = (timeUnixUTC 0, some (.msg "node not found")) :=
  ⟨UnixTimestamp_delegates.1 (some "1500000000") 1500000000 rfl,
   UnixTimestamp_delegates.2 none (.msg "node not found") rfl⟩

/-- C9: whenever `UnixTimestamp` returns an error, the time value
returned alongside it is exactly `time.Unix(0, 0).UTC()`. -/
theorem UnixTimestamp_error_sentinel (raw : Option String) (e : GoError)
    (h : (UnixTimestamp raw).2 = some e) :
    (UnixTimestamp raw).1 = timeUnixUTC 0 := by
  cases hc : cacheInt raw with
  | error e' =>
    simp only [UnixTimestamp, hc]
  | ok ts =>
    simp only [UnixTimestamp, hc] at h
    exact absurd h (by simp)

/-- C9 witness: the sentinel at a concrete failing extraction. -/
theorem UnixTimestamp_error_sentinel_witness :
    (UnixTimestamp (some "oops")).1 = timeUnixUTC 0 :=
  UnixTimestamp_error_sentinel (some "oops")
    (.malformedNum "ParseInt" "oops") rfl

/-- C7: `URLWithBaseURL` resolves the extracted text against the base
with standard reference-resolution semantics: the relative example
"/members/alice" against the project page base yields the member URL on
the same host; the absolute example keeps every field for every base;
and in general a reference with a scheme is returned unchanged for
every base whenever its path is already in normal form (dot-segment
removal is the identity on it) — scheme defaulting cannot apply since
the scheme is non-empty. -/
theorem URLWithBaseURL_resolve :
    URLWithBaseURL (some "/members/alice")
      { scheme := "https", opaquePart := "", host := "mods.example.com",
        path := "/mc-mods/minecraft/238424-taam", rawQuery := "" } =
      .ok { scheme := "https", opaquePart := "", host := "mods.example.com",
            path := "/members/alice", rawQuery := "" } ∧
    (∀ base, URLWithBaseURL (some "https://other.example.com/y") base =
      .ok { scheme := "https", opaquePart := "", host := "other.example.com",
            path := "/y", rawQuery := "" }) ∧
    (∀ base ref, ref.scheme ≠ "" → resolvePath ref.path "" = ref.path →
      resolveReference base ref = ref) := by
  refine ⟨rfl, fun base => rfl, ?_⟩
  intro base ref h1 h2
  simp only [resolveReference, h2, if_neg h1, ne_eq, h1, not_false_iff, true_or, if_true]
  rfl

/-- C7 witness: the general absolute clause at a concrete base and
reference. -/
theorem URLWithBaseURL_resolve_witness :
    resolveReference
      { scheme := "http", opaquePart := "", host := "a.example", path := "/z",
        rawQuery := "q" }
      { scheme := "https", opaquePart := "", host := "other.example.com", path := "/y",
        rawQuery := "" } =
      { scheme := "https", opaquePart := "", host := "other.example.com", path := "/y",
        rawQuery := "" } :=
  URLWithBaseURL_resolve.2.2 _ _ (by decide) (by decide)

/-- Helper: a row list in which every row parses appends exactly those
files, in order, and reports no error. -/
theorem parseCFFilesRows_ok (fs : List File) : ∀ r : CurseForge,
    parseCFFilesRows r (fs.map Except.ok) = ({ Downloads := r.Downloads ++ fs }, none) := by
  induction fs with
  | nil => intro r; simp [parseCFFilesRows]
  | cons f fs ih =>
    intro r
    simp only [List.map_cons, parseCFFilesRows, ih]
    simp

/-- Helper: when every pagination label parses, the scan returns the
maximum of the parsed values (over the starting accumulator). -/
theorem scanPagination_max (labels : List String) : ∀ (vs : List Nat) (acc : Nat),
    parseLabels labels = .ok vs →
    scanPagination acc labels = .ok (vs.foldl max acc) := by
  induction labels with
  | nil =>
    intro vs acc h
    simp only [parseLabels] at h
    injection h with h'
    subst h'
    rfl
  | cons l ls ih =>
    intro vs acc h
    simp only [parseLabels] at h
    cases hu : ParseUInt l with
    | error e => rw [hu] at h; exact absurd h (by simp)
    | ok v =>
      rw [hu] at h
      cases hp : parseLabels ls with
      | error e => rw [hp] at h; exact absurd h (by simp)
      | ok vs' =>
        rw [hp] at h
        injection h with h'
        subst h'
        have hmax : (if v > acc then v else acc) = max acc v := by
          split <;> omega
        simp only [scanPagination, hu, hmax, List.foldl_cons]
        exact ih vs' (max acc v) hp

/-- Helper: when every page in the list fetches and parses cleanly, the
page loop appends the pages' records in list order, fetches exactly the
listed pages in order, and reports no error. -/
theorem parseCFFilesPages_ok (w : FilesWorld) (docs : Nat → List File)
    (plabels : Nat → List String) (pages : List Nat) : ∀ r : CurseForge,
    (∀ p ∈ pages, w.fetchPage p = none ∧
      w.pageDoc p = .ok { rows := (docs p).map Except.ok, paginationLabels := plabels p }) →
    parseCFFilesPages w r pages =
      ({ Downloads := r.Downloads ++ pages.flatMap docs }, pages, none) := by
  induction pages with
  | nil => intro r _; simp [parseCFFilesPages]
  | cons page rest ih =>
    intro r h
    obtain ⟨hf, hd⟩ := h page (by simp)
    simp only [parseCFFilesPages, hf, hd, parseCFFilesRows_ok]
    rw [ih _ (fun p hp => h p (by simp [hp]))]
    simp [List.append_assoc]

/-- C2: with the no-pagination option unset, `parseCFFiles` parses page
1 into the accumulator, discovers the page count as the maximum parsed
pagination label, and fetches pages 2..max sequentially in ascending
order, appending each page's records, so the final order is page 1's
records followed by page 2's, and so on (`List.range' 2 (m + 1 - 2)` is
`[2, ..., m]`, empty when `m ≤ 1`, so a page count of at most 1 stops
after page 1). With the option set it stops after page 1. A page with
no pagination-control region (no labels) likewise yields a single-page
aggregation. -/
theorem parseCFFiles_pagination_spec :
    (∀ (w : FilesWorld) (init : CurseForge) (options : Nat) (files1 : List File)
        (labels : List String) (vs : List Nat) (docs : Nat → List File)
        (plabels : Nat → List String),
      CurseForgeOptions.Has options CFOptionFilesNoPagination = false →
      parseLabels labels = .ok vs →
      (∀ p ∈ List.range' 2 (vs.foldl max 0 + 1 - 2), w.fetchPage p = none ∧
        w.pageDoc p = .ok { rows := (docs p).map Except.ok, paginationLabels := plabels p }) →
      parseCFFiles init options { rows := files1.map Except.ok, paginationLabels := labels } w =
        ({ Downloads := init.Downloads ++ files1 ++
            (List.range' 2 (vs.foldl max 0 + 1 - 2)).flatMap docs },
          List.range' 2 (vs.foldl max 0 + 1 - 2), none)) ∧
    (∀ (w : FilesWorld) (init : CurseForge) (options : Nat) (files1 : List File)
        (labels : List String),
      CurseForgeOptions.Has options CFOptionFilesNoPagination = true →
      parseCFFiles init options { rows := files1.map Except.ok, paginationLabels := labels } w =
        ({ Downloads := init.Downloads ++ files1 }, [], none)) ∧
    (∀ (w : FilesWorld) (init : CurseForge) (options : Nat) (files1 : List File),
      CurseForgeOptions.Has options CFOptionFilesNoPagination = false →
      parseCFFiles init options { rows := files1.map Except.ok, paginationLabels := [] } w =
        ({ Downloads := init.Downloads ++ files1 }, [], none)) := by
  refine ⟨?_, ?_, ?_⟩
  · intro w init options files1 labels vs docs plabels hopt hl hw
    simp only [parseCFFiles, parseCFFilesSinglePage, parseCFFilesRows_ok, hopt,
      Bool.false_eq_true, if_false]
    rw [scanPagination_max labels vs 0 hl]
    show parseCFFilesPages w { Downloads := init.Downloads ++ files1 }
        (List.range' 2 (List.foldl max 0 vs + 1 - 2)) =
      ({ Downloads := init.Downloads ++ files1 ++
          (List.range' 2 (List.foldl max 0 vs + 1 - 2)).flatMap docs },
        List.range' 2 (List.foldl max 0 vs + 1 - 2), none)
    rw [parseCFFilesPages_ok w docs plabels _ _ hw]
  · intro w init options files1 labels hopt
    simp only [parseCFFiles, parseCFFilesSinglePage, parseCFFilesRows_ok, hopt, if_true]
  · intro w init options files1 hopt
    simp only [parseCFFiles, parseCFFilesSinglePage, parseCFFilesRows_ok, hopt,
      Bool.false_eq_true, if_false]
    rfl

/-- C2 witness: a two-page listing (pagination label "2"); the
aggregation is page 1's record followed by page 2's, with page 2
fetched exactly once. -/
theorem parseCFFiles_pagination_spec_witness :
    parseCFFiles { Downloads := [] } CFOptionNone
      { rows := [Except.ok sampleFileA], paginationLabels := ["2"] }
      { fetchPage := fun _ => none,
        pageDoc := fun _ => .ok { rows := [Except.ok sampleFileB], paginationLabels := [] } } =
      ({ Downloads := [sampleFileA, sampleFileB] }, [2], none) := by
  have h := parseCFFiles_pagination_spec.1
    { fetchPage := fun _ => none,
      pageDoc := fun _ => .ok { rows := [Except.ok sampleFileB], paginationLabels := [] } }
    { Downloads := [] } CFOptionNone [sampleFileA] ["2"] [2] (fun _ => [sampleFileB])
    (fun _ => []) rfl rfl (fun p _ => ⟨rfl, rfl⟩)
  simpa using h

/-- Helper: every error surfaces itself. -/
theorem surfaces_self (e : GoError) : e.surfaces e = true := by
  unfold GoError.surfaces
  simp

/-- Helper: wrapping with `fmt.Errorf` context keeps the cause
surfaced. -/
theorem surfaces_wrap (ctx : String) (e c : GoError) (h : e.surfaces c = true) :
    (GoError.wrap ctx e).surfaces c = true := by
  unfold GoError.surfaces
  split
  · rfl
  · exact h

/-- C1: inside `FetchCurseForge`'s section loop, when the files section
is reached, a failure of the page-1 fetch, of the page-1 HTML parse, or
of the files aggregation itself (`parseCFFiles`, which covers failures
on any subsequent page) makes the loop return `Except.error` with the
cause wrapped — and `Except.error` carries no accumulator, so no
partially filled `Downloads` list reaches the caller. The final clause
runs the whole `FetchCurseForge` with only the files section selected:
the aggregation failure surfaces to the caller and the result is an
error, not a partial accumulator. -/
theorem FetchCurseForge_files_failure_aborts :
    (∀ (w : CFWorld) (sections options : Nat) (rest : List CFSection) (doHeader : Bool)
        (results : CurseForge) (e : GoError),
      CurseForgeSections.Has sections CFSectionFiles = true →
      w.fetchErr .files = some e →
      FetchCurseForgeLoop w sections options (.files :: rest) doHeader results =
        .error (.wrap "Error fetching URL" e)) ∧
    (∀ (w : CFWorld) (sections options : Nat) (rest : List CFSection) (doHeader : Bool)
        (results : CurseForge) (e : GoError),
      CurseForgeSections.Has sections CFSectionFiles = true →
      w.fetchErr .files = none →
      w.htmlErr .files = some e →
      FetchCurseForgeLoop w sections options (.files :: rest) doHeader results =
        .error (.wrap "Error parsing URL" (.wrap "error parsing xml/http" e))) ∧
    (∀ (w : CFWorld) (sections options : Nat) (rest : List CFSection) (doHeader : Bool)
        (results : CurseForge) (e : GoError),
      CurseForgeSections.Has sections CFSectionFiles = true →
      w.fetchErr .files = none →
      w.htmlErr .files = none →
      (if doHeader then w.headerErr else none) = none →
      (parseCFFiles results options w.filesDoc w.filesWorld).2.2 = some e →
      FetchCurseForgeLoop w sections options (.files :: rest) doHeader results =
        .error (.wrap "Error parsing URL" (.wrap "error processing CF Files" e))) ∧
    (∀ (w : CFWorld) (options : Nat) (e : GoError),
      w.fetchErr .files = none →
      w.htmlErr .files = none →
      w.headerErr = none →
      (parseCFFiles { Downloads := [] } options w.filesDoc w.filesWorld).2.2 = some e →
      FetchCurseForge w CFSectionFiles options [.overview, .files, .images] =
        .error (.wrap "Error parsing URL" (.wrap "error processing CF Files" e)) ∧
      (GoError.wrap "Error parsing URL"
        (.wrap "error processing CF Files" e)).surfaces e = true) := by
  have h3 : ∀ (w : CFWorld) (sections options : Nat) (rest : List CFSection)
      (doHeader : Bool) (results : CurseForge) (e : GoError),
      CurseForgeSections.Has sections CFSectionFiles = true →
      w.fetchErr .files = none →
      w.htmlErr .files = none →
      (if doHeader then w.headerErr else none) = none →
      (parseCFFiles results options w.filesDoc w.filesWorld).2.2 = some e →
      FetchCurseForgeLoop w sections options (.files :: rest) doHeader results =
        .error (.wrap "Error parsing URL" (.wrap "error processing CF Files" e)) := by
    intro w sections options rest doHeader results e hs hf hh hhd hp
    rcases hpp : parseCFFiles results options w.filesDoc w.filesWorld with ⟨r, tr, err⟩
    rw [hpp] at hp
    simp only at hp
    subst hp
    simp only [FetchCurseForgeLoop, sectionBit, hs, if_true, hf, ParseCurseForge, hh, hhd,
      hpp]
  refine ⟨?_, ?_, h3, ?_⟩
  · intro w sections options rest doHeader results e hs hf
    simp only [FetchCurseForgeLoop, sectionBit, hs, if_true, hf]
  · intro w sections options rest doHeader results e hs hf hh
    simp only [FetchCurseForgeLoop, sectionBit, hs, if_true, hf, ParseCurseForge, hh]
  · intro w options e hf hh hhd hp
    constructor
    · show FetchCurseForgeLoop w CFSectionFiles options [.files, .images] true
        { Downloads := [] } =
        .error (.wrap "Error parsing URL" (.wrap "error processing CF Files" e))
      exact h3 w CFSectionFiles options [.images] true { Downloads := [] } e rfl hf hh hhd hp
    · exact surfaces_wrap _ _ _ (surfaces_wrap _ _ _ (surfaces_self e))

/-- C1 witness: a files-only run whose page 1 has a good row followed by
a failing row; the whole call returns an error (no accumulator), with
the row failure surfaced through the wrappings. -/
theorem FetchCurseForge_files_failure_aborts_witness :
    FetchCurseForge
      { fetchErr := fun _ => none, htmlErr := fun _ => none, headerErr := none,
        overviewParse := fun r => (r, none),
        filesDoc := { rows := [Except.ok sampleFileA, Except.error (.msg "bad row")],
                      paginationLabels := [] },
        filesWorld := { fetchPage := fun _ => none,
                        pageDoc := fun _ => .ok { rows := [], paginationLabels := [] } } }
      CFSectionFiles CFOptionNone [CFSection.overview, CFSection.files, CFSection.images] =
      .error (.wrap "Error parsing URL" (.wrap "error processing CF Files"
        (.wrap "error parsing first files page" (.msg "bad row")))) :=
  (FetchCurseForge_files_failure_aborts.2.2.2
    { fetchErr := fun _ => none, htmlErr := fun _ => none, headerErr := none,
      overviewParse := fun r => (r, none),
      filesDoc := { rows := [Except.ok sampleFileA, Except.error (.msg "bad row")],
                    paginationLabels := [] },
      filesWorld := { fetchPage := fun _ => none,
                      pageDoc := fun _ => .ok { rows := [], paginationLabels := [] } } }
    CFOptionNone
    (.wrap "error parsing first files page" (.msg "bad row")) rfl rfl rfl rfl).1
